import Mathlib

/-!
# Verification of the ANALYZER report-generation pipeline

Shallow embedding of `src/app.py` (a Flask data-report utility) and proofs
about its observable behaviour.  Strings are modelled as `List Char` over
ASCII; Python string operations (`str.strip`, `str.lower`, `re.sub`) and the
pandas operations the script calls (`describe`, `round`, `to_csv`,
`read_csv`) are embedded as executable Lean functions faithful to their
documented behaviour on the inputs the script feeds them.
-/

namespace Analyzer

/-- ASCII whitespace characters recognised by Python `str.strip()` /
`str.split()` (space, tab, newline, carriage return, vertical tab, form
feed). -/
def pyIsSpace (c : Char) : Bool :=
  c = ' ' ∨ c = '\t' ∨ c = '\n' ∨ c = '\r' ∨ c = '\x0b' ∨ c = '\x0c'

/-- Python `str.strip()` (ASCII model): drop whitespace from both ends. -/
def pyStrip (s : List Char) : List Char :=
  ((s.dropWhile pyIsSpace).reverse.dropWhile pyIsSpace).reverse

/-- Python `str.lower()` (ASCII model): lowercase A–Z. -/
def pyLower (s : List Char) : List Char :=
  s.map Char.toLower

/-- Membership in the character class `[a-z0-9_]` of the sanitising regex in
`upload_and_analyze`. -/
def isAllowedNameChar (c : Char) : Bool :=
  ('a' ≤ c ∧ c ≤ 'z') ∨ ('0' ≤ c ∧ c ≤ '9') ∨ c = '_'

/-- `re.sub(r'[^a-z0-9_]', '_', s)`: replace every character outside
`[a-z0-9_]` with an underscore (the pattern matches single characters). -/
def replaceBadChars (s : List Char) : List Char :=
  s.map (fun c => if isAllowedNameChar c then c else '_')

/-- Helper for `collapseUnderscores`: `prevU` records whether the previous
character was an underscore (so further underscores of the same run are
dropped). -/
def collapseAux : Bool → List Char → List Char
  | _, [] => []
  | prevU, c :: rest =>
    if c = '_' then
      if prevU then collapseAux true rest else '_' :: collapseAux true rest
    else c :: collapseAux false rest

/-- `re.sub(r'_+', '_', s)`: collapse every maximal run of underscores to a
single underscore. -/
def collapseUnderscores (s : List Char) : List Char :=
  collapseAux false s

/-- Column-name sanitisation performed at `app.py:205-206`:
`df.columns.str.strip().str.lower()
  .str.replace(r'[^a-z0-9_]', '_', regex=True)
  .str.replace(r'_+', '_', regex=True)`. -/
def normalizeName (s : List Char) : List Char :=
  collapseUnderscores (replaceBadChars (pyLower (pyStrip s)))

/-- The normalisation procedure as the specification words it: trim, then
lowercase, then replace each maximal run of characters outside `[a-z0-9_]`
with a single underscore, leaving characters already in the class (existing
underscores included) unchanged. -/
def specNormalize (s : List Char) : List Char :=
  go false (pyLower (pyStrip s))
where
  /-- Replace each maximal run of disallowed characters by one `'_'`;
  `prevBad` records whether the previous character was disallowed (so the
  rest of its run is dropped). -/
  go : Bool → List Char → List Char
    | _, [] => []
    | prevBad, c :: rest =>
      if isAllowedNameChar c then c :: go false rest
      else if prevBad then go true rest
      else '_' :: go true rest

/-- Python `str.split()` with no argument: split on runs of whitespace,
discarding empty pieces.  `cur` accumulates the current word reversed. -/
def splitWsAux : List Char → List Char → List (List Char)
  | cur, [] => if cur = [] then [] else [cur.reverse]
  | cur, c :: rest =>
    if pyIsSpace c then
      if cur = [] then splitWsAux [] rest else cur.reverse :: splitWsAux [] rest
    else splitWsAux (c :: cur) rest

/-- Python `str.split()` (no separator argument). -/
def pySplitWs (s : List Char) : List (List Char) :=
  splitWsAux [] s

/-- Character class `[A-Za-z0-9_.-]` kept by werkzeug's
`_filename_ascii_strip_re`. -/
def isSecureChar (c : Char) : Bool :=
  ('A' ≤ c ∧ c ≤ 'Z') ∨ ('a' ≤ c ∧ c ≤ 'z') ∨ ('0' ≤ c ∧ c ≤ '9') ∨
    c = '_' ∨ c = '.' ∨ c = '-'

/-- Python `str.strip("._")`: drop leading and trailing dots/underscores. -/
def stripDotUnderscore (s : List Char) : List Char :=
  ((s.dropWhile fun c => c = '.' ∨ c = '_').reverse.dropWhile
    (fun c => c = '.' ∨ c = '_')).reverse

/-- `werkzeug.utils.secure_filename` (ASCII/posix model): replace path
separators by spaces, join the whitespace-split pieces with underscores,
delete characters outside `[A-Za-z0-9_.-]`, then strip leading/trailing
dots and underscores.  (The NFKD/ASCII transcoding step is the identity on
ASCII input, and the Windows device-name branch does not apply.) -/
def secure_filename (s : List Char) : List Char :=
  stripDotUnderscore
    ((List.intercalate ['_']
        (pySplitWs (s.map fun c => if c = '/' then ' ' else c))).filter
      isSecureChar)

/-- Python `filename.rsplit('.', 1)`: split off the part after the last
dot.  Returns `none` when the string contains no dot (in which case the
script's `[1]` subscript raises `IndexError`). -/
def rsplitDot (s : List Char) : Option (List Char × List Char) :=
  go s.reverse
where
  /-- Scan the reversed string for the first dot. -/
  go : List Char → Option (List Char × List Char)
    | [] => none
    | c :: rest => if c = '.' then some (rest.reverse, []) else
        match go rest with
        | none => none
        | some (stem, ext) => some (stem, ext ++ [c])

/-- `allowed_file` (`app.py:36-38`): the filename contains a dot and its
lowercased last-dot extension is in `ALLOWED_EXTENSIONS = {csv, xlsx}`. -/
def allowed_file (filename : List Char) : Bool :=
  filename.contains '.' &&
    match rsplitDot filename with
    | none => false
    | some (_, ext) =>
      pyLower ext = "csv".toList ∨ pyLower ext = "xlsx".toList

/-- Result of a fallible Python computation: a value, or a raised
exception's message. -/
inductive Res (α : Type) where
  | ok (val : α)
  | error (msg : List Char)
deriving DecidableEq, Repr

/-- Map a function over a successful result. -/
def Res.map {α β : Type} (f : α → β) : Res α → Res β
  | .ok a => .ok (f a)
  | .error m => .error m

/-! ## The data model: pandas DataFrames as tabular frames -/

/-- A single cell of a frame: a (float/int) number, a string, or missing
(`NaN`/`None`).  Rationals stand in for the floating-point values pandas
uses; no claim depends on float rounding noise. -/
inductive Cell
  | num (q : ℚ)
  | str (s : List Char)
  | none
deriving DecidableEq, Repr

/-- A named, typed column: either numeric dtype (values `Option ℚ`, `none`
for `NaN`) or object dtype (arbitrary cells). -/
inductive Col
  | numeric (name : List Char) (vals : List (Option ℚ))
  | object (name : List Char) (vals : List Cell)
deriving DecidableEq, Repr

/-- The name of a column. -/
def Col.name : Col → List Char
  | .numeric n _ => n
  | .object n _ => n

/-- The number of values stored in a column. -/
def Col.size : Col → Nat
  | .numeric _ v => v.length
  | .object _ v => v.length

/-- Whether a column has numeric dtype. -/
def Col.isNumeric : Col → Bool
  | .numeric _ _ => true
  | .object _ _ => false

/-- The cells of a column, numeric values embedded as cells. -/
def Col.cells : Col → List Cell
  | .numeric _ v => v.map fun o => match o with | some q => Cell.num q | Option.none => Cell.none
  | .object _ v => v

/-- Rename a column. -/
def Col.rename (f : List Char → List Char) : Col → Col
  | .numeric n v => .numeric (f n) v
  | .object n v => .object (f n) v

/-- A pandas `DataFrame`: ordered columns plus the row count. -/
structure Frame where
  cols : List Col
  nrows : Nat
deriving DecidableEq, Repr

/-- Well-formedness: every column holds exactly `nrows` values. -/
def Frame.wf (f : Frame) : Prop :=
  ∀ c ∈ f.cols, c.size = f.nrows

/-- `DataFrame.empty`: true when the frame has no rows or no columns. -/
def Frame.isEmpty (f : Frame) : Bool :=
  f.nrows = 0 ∨ f.cols = []

/-- The numeric-dtype columns of a frame. -/
def Frame.numericCols (f : Frame) : List Col :=
  f.cols.filter Col.isNumeric

/-- The column names, in order. -/
def Frame.names (f : Frame) : List (List Char) :=
  f.cols.map Col.name

/-- Row `i` of the frame (`df.values` row), as a list of cells. -/
def Frame.row (f : Frame) (i : Nat) : List Cell :=
  f.cols.map fun c => c.cells.getD i Cell.none

/-- All rows of the frame in order (`df.values.tolist()`). -/
def Frame.rowsList (f : Frame) : List (List Cell) :=
  (List.range f.nrows).map f.row

/-- The column-name sanitisation applied to a whole frame
(`df.columns = df.columns.str...`, `app.py:205-206`). -/
def sanitizeColumns (f : Frame) : Frame :=
  ⟨f.cols.map (Col.rename normalizeName), f.nrows⟩

/-! ## Summary statistics (`DataFrame.describe` + `round(2)`) -/

/-- Insert into a `≤`-sorted list of rationals. -/
def insertSorted (x : ℚ) : List ℚ → List ℚ
  | [] => [x]
  | y :: rest => if x ≤ y then x :: y :: rest else y :: insertSorted x rest

/-- Sort a list of rationals ascending (insertion sort; pandas sorts the
non-missing values before taking quantiles). -/
def sortQ : List ℚ → List ℚ
  | [] => []
  | x :: rest => insertSorted x (sortQ rest)

/-- Sum of a list of rationals. -/
def sumQ (xs : List ℚ) : ℚ := xs.foldr (· + ·) 0

/-- Round half-up to the nearest integer multiple of `1/100`
(`Series.round(2)`; pandas rounds float64 values, whose tie behaviour this
exact-rational model idealises). -/
def round2 (q : ℚ) : ℚ := (round (q * 100) : ℤ) / 100

/-- The nearest integer multiple of `1/100` to `√q` (for `q ≥ 0`),
computed exactly on rationals: this is `round(·, 2)` composed with the real
square root, the composition the script applies to the sample standard
deviation. -/
def sqrtRound2 (q : ℚ) : ℚ :=
  if q ≤ 0 then 0
  else
    ((Nat.sqrt (4 * (10000 * q.num.toNat * q.den)) + q.den) / (2 * q.den) : ℕ) / 100

/-- `Series.quantile p` with the default linear interpolation, on the
sorted non-missing values `v` (nonempty): position `h = p·(m-1)`,
`v[⌊h⌋] + (h-⌊h⌋)·(v[⌊h⌋+1] - v[⌊h⌋])`. -/
def quantileSorted (v : List ℚ) (p : ℚ) : ℚ :=
  let m := v.length
  let h := p * ((m : ℚ) - 1)
  let lo := h.floor.toNat
  let frac := h - (h.floor : ℚ)
  if lo + 1 < m then v.getD lo 0 + frac * (v.getD (lo + 1) 0 - v.getD lo 0)
  else v.getD lo 0

/-- Minimum of a nonempty rational list (0 placeholder when empty). -/
def minQ : List ℚ → ℚ
  | [] => 0
  | [x] => x
  | x :: y :: rest => min x (minQ (y :: rest))

/-- Maximum of a nonempty rational list (0 placeholder when empty). -/
def maxQ : List ℚ → ℚ
  | [] => 0
  | [x] => x
  | x :: y :: rest => max x (maxQ (y :: rest))

/-- The eight `describe` statistics of one numeric column, in pandas row
order (count, mean, std, min, 25%, 50%, 75%, max), over the non-missing
values; `none` is `NaN`.  `std` is the sample standard deviation
(`ddof=1`), `NaN` for fewer than two values, represented directly at
2-decimal precision (see `sqrtRound2`). -/
def describeNumeric (vals : List (Option ℚ)) : List (Option ℚ) :=
  let xs := vals.reduceOption
  let m := xs.length
  let mean := sumQ xs / m
  [some (m : ℚ),
   if m = 0 then Option.none else some mean,
   if m ≤ 1 then Option.none
   else some (sqrtRound2 (sumQ (xs.map fun x => (x - mean) ^ 2) / ((m : ℚ) - 1))),
   if m = 0 then Option.none else some (minQ xs),
   if m = 0 then Option.none else some (quantileSorted (sortQ xs) (1 / 4)),
   if m = 0 then Option.none else some (quantileSorted (sortQ xs) (1 / 2)),
   if m = 0 then Option.none else some (quantileSorted (sortQ xs) (3 / 4)),
   if m = 0 then Option.none else some (maxQ xs)]

/-- Count the occurrences of `x` in a list of cells. -/
def countOcc (x : Cell) (xs : List Cell) : Nat :=
  (xs.filter (· = x)).length

/-- The most frequent cell of a list (`value_counts().index[0]`), ties
resolved in favour of the earliest first occurrence (a deterministic model
of pandas' tie behaviour).  `Cell.none` when the list is empty. -/
def topCell (xs : List Cell) : Cell :=
  go xs.eraseDups
where
  /-- Pick the candidate with the strictly greatest count, scanning
  first occurrences left to right. -/
  go : List Cell → Cell
    | [] => Cell.none
    | [c] => c
    | c :: d :: rest =>
      let best := go (d :: rest)
      if countOcc best xs > countOcc c xs then best else c

/-- The four object-dtype `describe` statistics (count, unique, top, freq)
of one column's cells, over the non-missing cells. -/
def describeObject (cells : List Cell) : List Cell :=
  let xs := cells.filter (· ≠ Cell.none)
  let m := xs.length
  [Cell.num (m : ℚ),
   Cell.num (xs.eraseDups.length : ℚ),
   if m = 0 then Cell.none else topCell xs,
   if m = 0 then Cell.none else Cell.num (countOcc (topCell xs) xs : ℚ)]

/-- The fixed statistic labels of a numeric `describe`. -/
def numericStatLabels : List (List Char) :=
  ["count".toList, "mean".toList, "std".toList, "min".toList,
   "25%".toList, "50%".toList, "75%".toList, "max".toList]

/-- The fixed statistic labels of an object `describe`. -/
def objectStatLabels : List (List Char) :=
  ["count".toList, "unique".toList, "top".toList, "freq".toList]

/-- `generate_summary_df` (`app.py:41-45`):
`df.describe().reset_index().rename(columns={'index': 'Statistic'}).round(2)`.
pandas `describe()` describes only the numeric columns when at least one
exists; with no numeric column it describes every column with the object
statistics count/unique/top/freq; with no columns at all it raises
`ValueError`.  `reset_index` turns the statistic labels into a leading
`Statistic` object column, and `round(2)` rounds the numeric-dtype columns
to two decimals (object columns are untouched). -/
def generate_summary_df (f : Frame) : Res Frame :=
  if f.cols = [] then
    .error "Cannot describe a DataFrame without columns".toList
  else if f.numericCols ≠ [] then
    .ok ⟨Col.object "Statistic".toList (numericStatLabels.map Cell.str) ::
           f.numericCols.map (fun c =>
             Col.numeric c.name
               ((describeNumeric (match c with
                   | .numeric _ v => v
                   | .object _ _ => [])).map (Option.map round2))),
         8⟩
  else
    .ok ⟨Col.object "Statistic".toList (objectStatLabels.map Cell.str) ::
           f.cols.map (fun c => Col.object c.name (describeObject c.cells)),
         4⟩

/-! ## PDF rendering (ReportLab story model) -/

/-- ReportLab paper sizes used by the script. -/
inductive Paper
  | A4
  | A3
  | A2
  | A1
deriving DecidableEq, Repr

/-- A concrete page size: a paper size in portrait or landscape
orientation (`landscape(X)` swaps the dimensions). -/
inductive PageSetting
  | portrait (p : Paper)
  | landscape (p : Paper)
deriving DecidableEq, Repr

/-- The page-size selection of `upload_and_analyze` (`app.py:216-223`):
`A4` portrait unless `page_size` is exactly the string `A3`, `A2` or `A1`
(case-sensitive), which select landscape orientation. -/
def selectPageSize (s : List Char) : PageSetting :=
  if s = "A3".toList then .landscape .A3
  else if s = "A2".toList then .landscape .A2
  else if s = "A1".toList then .landscape .A1
  else .portrait .A4

/-- A ReportLab flowable as the script builds them: a styled paragraph, a
spacer, or a table; `headerStyled` records whether the table carries the
header-background style (the header table does, data-chunk tables do
not). -/
inductive Flowable
  | para (text : List Char) (style : List Char)
  | spacer (w h : Nat)
  | table (headerStyled : Bool) (data : List (List Cell))
deriving DecidableEq, Repr

/-- A built PDF document: its page size and its story. -/
structure PdfDoc where
  pagesize : PageSetting
  story : List Flowable
deriving DecidableEq, Repr

/-- Decimal rendering of a natural number (Python's `str`/f-string). -/
def natToStr (n : Nat) : List Char :=
  Nat.toDigits 10 n

/-- `generate_reportlab_pdf` (`app.py:48-75`): the summary PDF.  Page size
is the `A4` constant (portrait).  The story is title, timestamp (`now` is
the `datetime.now()` string), record count, then either the summary table
(header row of column names plus the value rows) or, when the summary
frame is empty, the explanatory placeholder paragraph.  An exception from
`generate_summary_df` propagates. -/
def generate_reportlab_pdf (f : Frame) (filename now : List Char) : Res PdfDoc :=
  match generate_summary_df f with
  | .error e => .error e
  | .ok numericSummary =>
    let numericData := numericSummary.names.map Cell.str :: numericSummary.rowsList
    .ok ⟨.portrait .A4,
      [.para ("Data Analysis Report: ".toList ++ filename) "Title".toList,
       .para ("Generated on: ".toList ++ now) "Normal".toList,
       .spacer 1 12,
       .para ("Total Records: ".toList ++ natToStr f.nrows) "Normal".toList,
       .spacer 1 24] ++
      (if ¬ numericSummary.isEmpty then
        [.para "Numeric Column Statistics:".toList "h2".toList,
         .table true numericData]
      else
        [.para "No numeric columns found.".toList "Italic".toList])⟩

/-- The fixed chunk size of the full-data PDF (`chunk_size = 5000`). -/
def pdfChunkSize : Nat := 5000

/-- The data chunks of the full-data PDF: for `i in range(0, total_rows,
5000)`, the row slice `df.iloc[i:i+5000]` as a list of rows. -/
def dataChunks (f : Frame) : List (List (List Cell)) :=
  (List.range ((f.nrows + pdfChunkSize - 1) / pdfChunkSize)).map fun i =>
    ((f.rowsList.drop (i * pdfChunkSize)).take pdfChunkSize)

/-- `generate_full_data_pdf` (`app.py:78-142`): page size as passed in;
story is title, timestamp, spacer, one header-only table (the column
names), then one table per 5000-row chunk of the data. -/
def generate_full_data_pdf (f : Frame) (filename now : List Char)
    (pageSize : PageSetting) : PdfDoc :=
  ⟨pageSize,
   [.para ("Full Data Report: ".toList ++ filename) "Title".toList,
    .para ("Generated on: ".toList ++ now) "Normal".toList,
    .spacer 1 12,
    .table true [f.names.map Cell.str]] ++
   (dataChunks f).map (.table false ·)⟩

/-- The number of table flowables in a story. -/
def countTables (story : List Flowable) : Nat :=
  (story.filter fun fl =>
    match fl with
    | .table _ _ => true
    | _ => false).length

/-- The data-chunk tables of a story: tables without the header style. -/
def dataTables (story : List Flowable) : List (List (List Cell)) :=
  story.filterMap fun fl =>
    match fl with
    | .table false d => some d
    | _ => Option.none

/-! ## CSV serialisation (`DataFrame.to_csv`) and parsing (`pd.read_csv`) -/

/-- Characters that force quoting of a CSV field under the default
`QUOTE_MINIMAL` policy. -/
def specialCsvChar (c : Char) : Bool :=
  c = ',' ∨ c = '"' ∨ c = '\n' ∨ c = '\r'

/-- Double every quote character (the escaping used inside quoted CSV
fields). -/
def escQuotes : List Char → List Char
  | [] => []
  | c :: rest =>
    if c = '"' then '"' :: '"' :: escQuotes rest else c :: escQuotes rest

/-- Serialise one CSV field: quote it (escaping inner quotes) exactly when
it contains a separator, quote or newline. -/
def escField (s : List Char) : List Char :=
  if s.any specialCsvChar then '"' :: escQuotes s ++ ['"'] else s

/-- One serialised CSV line: the escaped fields joined with commas. -/
def csvLine (fields : List (List Char)) : List Char :=
  List.intercalate [','] (fields.map escField)

/-- Decimal/rational rendering of a numeric cell for CSV output.  pandas
prints float64 values in shortest-round-trip decimal notation; this exact
model prints the rational as `[-]numerator[/denominator]`.  No claim
inspects the printed value — the specification itself waives value
formatting ("values may differ in formatting") — only that it is non-empty
and free of separators/quotes/newlines, which both renderings are. -/
def ratRepr (q : ℚ) : List Char :=
  (if q < 0 then ['-'] else []) ++ natToStr q.num.natAbs ++
    (if q.den = 1 then [] else '/' :: natToStr q.den)

/-- The CSV field written for a cell: missing values print as the empty
string (default `na_rep`), strings verbatim, numbers via `ratRepr`. -/
def cellToField : Cell → List Char
  | .num q => ratRepr q
  | .str s => s
  | .none => []

/-- The records `to_csv(index=False)` writes: the header (column names)
followed by one record of rendered fields per row. -/
def toCsvRecords (f : Frame) : List (List (List Char)) :=
  f.names :: f.rowsList.map (·.map cellToField)

/-- `DataFrame.to_csv(index=False)`: each record as a comma-joined line
terminated by a newline. -/
def toCsv (f : Frame) : List Char :=
  (toCsvRecords f).foldr (fun r acc => csvLine r ++ '\n' :: acc) []

/-- State of the CSV tokenizer: outside quotes, inside a quoted field, or
just past the closing quote of a quoted field. -/
inductive CsvMode
  | outQ
  | inQ
  | closedQ
deriving DecidableEq, Repr

/-- The CSV tokenizer, one character at a time.  `fld` is the current
field (reversed), `rec` the fields of the current record (reversed), `out`
the finished records (reversed).  A quote opens a quoted field only at
field start; inside quotes a doubled quote is a literal quote; newline
ends the record.  At end of input any pending field/record is flushed
(pandas instead raises on an unterminated quote; the script never feeds it
one). -/
def recsAux : CsvMode → List Char → List (List Char) → List (List (List Char)) →
    List Char → List (List (List Char))
  | .outQ, fld, rec, out, [] =>
    if fld = [] ∧ rec = [] then out.reverse
    else ((fld.reverse :: rec).reverse :: out).reverse
  | .inQ, fld, rec, out, [] => ((fld.reverse :: rec).reverse :: out).reverse
  | .closedQ, fld, rec, out, [] => ((fld.reverse :: rec).reverse :: out).reverse
  | .outQ, fld, rec, out, c :: rest =>
    if c = '"' ∧ fld = [] then recsAux .inQ fld rec out rest
    else if c = ',' then recsAux .outQ [] (fld.reverse :: rec) out rest
    else if c = '\n' then recsAux .outQ [] [] ((fld.reverse :: rec).reverse :: out) rest
    else recsAux .outQ (c :: fld) rec out rest
  | .inQ, fld, rec, out, c :: rest =>
    if c = '"' then recsAux .closedQ fld rec out rest
    else recsAux .inQ (c :: fld) rec out rest
  | .closedQ, fld, rec, out, c :: rest =>
    if c = '"' then recsAux .inQ ('"' :: fld) rec out rest
    else if c = ',' then recsAux .outQ [] (fld.reverse :: rec) out rest
    else if c = '\n' then recsAux .outQ [] [] ((fld.reverse :: rec).reverse :: out) rest
    else recsAux .outQ (c :: fld) rec out rest

/-- Split raw CSV text into records of fields. -/
def splitRecords (s : List Char) : List (List (List Char)) :=
  recsAux .outQ [] [] [] s

/-- `skip_blank_lines=True` (the `read_csv` default): drop records coming
from empty lines — records consisting of a single empty field. -/
def skipBlank (recs : List (List (List Char))) : List (List (List Char)) :=
  recs.filter (· ≠ [([] : List Char)])

/-- `read_csv` header repair, step 1: an empty header cell at position `i`
becomes `Unnamed: i`. -/
def renameUnnamed (hs : List (List Char)) : List (List Char) :=
  hs.enum.map fun p =>
    if p.2 = [] then "Unnamed: ".toList ++ natToStr p.1 else p.2

/-- `read_csv` header repair, step 2: the `k`-th repeated occurrence of a
duplicated header gets the suffix `.k` (pandas additionally re-checks the
renamed result against the other headers, a cascade that cannot trigger
for the inputs used here; on pairwise-distinct headers this is the
identity). -/
def mangleDup (hs : List (List Char)) : List (List Char) :=
  go [] hs
where
  /-- `seen` holds the headers already emitted (base names). -/
  go : List (List Char) → List (List Char) → List (List Char)
    | _, [] => []
    | seen, h :: rest =>
      let k := seen.count h
      (if k = 0 then h else h ++ '.' :: natToStr k) :: go (h :: seen) rest

/-- The cell `read_csv` stores for a raw field: empty fields become
missing (`NaN`), anything else is kept as text.  (pandas additionally
infers numeric dtypes; no claim depends on the inferred cell type.) -/
def fieldToCell (s : List Char) : Cell :=
  if s = [] then Cell.none else Cell.str s

/-- `pd.read_csv` on raw text: tokenize, skip blank lines, raise
`EmptyDataError` when nothing remains, otherwise take the first record as
the (repaired) header and the rest as rows.  Short rows are padded with
missing values. -/
def read_csv (s : List Char) : Res Frame :=
  match skipBlank (splitRecords s) with
  | [] => .error "No columns to parse from file".toList
  | header :: dataRows =>
    let names := mangleDup (renameUnnamed header)
    .ok ⟨names.enum.map (fun p =>
           Col.object p.2 (dataRows.map fun r => fieldToCell (r.getD p.1 []))),
         dataRows.length⟩

/-! ## CSV / Excel report generators and the request handler -/

/-- `generate_csv_report` (`app.py:145-154`): the summary frame (for
`report_type == 'summary'`) or the full frame, serialised with
`to_csv(index=False)`.  An exception from `generate_summary_df`
propagates. -/
def generate_csv_report (f : Frame) (reportType : List Char) : Res (List Char) :=
  if reportType = "summary".toList then (generate_summary_df f).map toCsv
  else .ok (toCsv f)

/-- `generate_excel_report` (`app.py:157-167`): the summary frame on sheet
`Summary`, or the full frame on sheet `Full Data`, written with
`to_excel(index=False)` (the xlsx byte encoding itself is opaque to every
claim and kept symbolic). -/
def generate_excel_report (f : Frame) (reportType : List Char) :
    Res (List Char × Frame) :=
  if reportType = "summary".toList then
    (generate_summary_df f).map (fun s => ("Summary".toList, s))
  else .ok ("Full Data".toList, f)

/-- The body of a successful report response. -/
inductive ReportBody
  | pdfDoc (doc : PdfDoc)
  | csvFile (content : List Char)
  | xlsxFile (sheet : List Char) (frame : Frame)
deriving DecidableEq, Repr

/-- An HTTP response of the endpoint: a JSON error with status code, or a
`send_file` download with name and MIME type. -/
inductive Resp
  | err (code : Nat) (msg : List Char)
  | file (body : ReportBody) (downloadName mimetype : List Char)
deriving DecidableEq, Repr

/-- The download name of a response, when it is a file. -/
def Resp.name : Resp → Option (List Char)
  | .file _ n _ => some n
  | .err _ _ => Option.none

/-- The MIME type of a response, when it is a file. -/
def Resp.mime : Resp → Option (List Char)
  | .file _ _ m => some m
  | .err _ _ => Option.none

/-- Whether the response is a file download (a generated report). -/
def Resp.isFile : Resp → Bool
  | .file _ _ _ => true
  | .err _ _ => false

/-- `MAX_FILE_SIZE` configuration: 150 MiB. -/
def MAX_FILE_SIZE : Nat := 150 * 1024 * 1024

/-- A POST request to the endpoint: presence and name of the uploaded
file, its raw bytes (modelled as characters), and the three optional form
fields. -/
structure Request where
  hasFile : Bool
  filename : List Char
  content : List Char
  report_type : Option (List Char)
  output_format : Option (List Char)
  page_size : Option (List Char)

/-- The generic 500 message of the catch-all `except` clause. -/
def unexpectedMsg (e : List Char) : List Char :=
  "An unexpected error occurred: ".toList ++ e

/-- The report-format dispatch of `upload_and_analyze` (`app.py:208-253`),
after a frame has been parsed and sanitised.  `fname` is the secured
filename (title text and download-name stem), `now` the timestamp string.
Unknown `output_format` values give the 400; an unknown `report_type`
leaves `report_file` as `None` on the PDF path (a 500) and falls into the
full-data branch of the CSV/Excel generators.  Exceptions raised by the
generators land in the catch-all handler (500). -/
def dispatch (df : Frame) (fname now : List Char)
    (reportType outputFormat pageSizeStr : List Char) : Resp :=
  let stem := ((rsplitDot fname).map Prod.fst).getD fname
  if outputFormat = "pdf".toList then
    let ps := selectPageSize pageSizeStr
    if reportType = "summary".toList then
      match generate_reportlab_pdf df fname now with
      | .ok doc =>
        .file (.pdfDoc doc) (stem ++ "_summary_report.pdf".toList)
          "application/pdf".toList
      | .error e => .err 500 (unexpectedMsg e)
    else if reportType = "full_data".toList then
      .file (.pdfDoc (generate_full_data_pdf df fname now ps))
        (stem ++ "_full_data.pdf".toList) "application/pdf".toList
    else .err 500 "Failed to generate report".toList
  else if outputFormat = "csv".toList then
    match generate_csv_report df reportType with
    | .ok content =>
      .file (.csvFile content)
        (stem ++ (if reportType = "summary".toList then
            "_summary_report.csv".toList else "_full_data.csv".toList))
        "text/csv".toList
    | .error e => .err 500 (unexpectedMsg e)
  else if outputFormat = "excel".toList then
    match generate_excel_report df reportType with
    | .ok sf =>
      .file (.xlsxFile sf.1 sf.2)
        (stem ++ (if reportType = "summary".toList then
            "_summary_report.xlsx".toList else "_full_data.xlsx".toList))
        "application/vnd.openxmlformats-officedocument.spreadsheetml.sheet".toList
    | .error e => .err 500 (unexpectedMsg e)
  else .err 400 "Invalid output format selected".toList

/-- `upload_and_analyze` (POST branch, `app.py:173-267`).  The pandas
parsers are passed in as functions from raw bytes to a frame or a parse
error (`pd.read_csv` on text is embedded separately as `read_csv`); `now`
is the `datetime.now()` string.  Checks run in source order: file
presence, empty filename, extension allow-list, size ceiling; then the
filename is secured, the extension after the last dot picks the parser (a
dotless secured name raises `IndexError`, an extension that is neither
`csv` nor `xlsx` leaves `df = None` and the column assignment raises
`AttributeError`; both land in the catch-all 500), parse failures are
reported as 400, and the sanitised frame goes to the format dispatch. -/
def upload_and_analyze (parseCsvFn parseExcelFn : List Char → Res Frame)
    (now : List Char) (req : Request) : Resp :=
  if ¬ req.hasFile then .err 400 "No file part in the request".toList
  else if req.filename = [] then .err 400 "No selected file".toList
  else if ¬ allowed_file req.filename then
    .err 400 "File type not allowed. Please upload a CSV or Excel file.".toList
  else if req.content.length > MAX_FILE_SIZE then
    .err 400 ("File is too large. Max size is ".toList ++
      natToStr (MAX_FILE_SIZE / (1024 * 1024)) ++ "MB.".toList)
  else
    let fname := secure_filename req.filename
    let reportType := pyLower (req.report_type.getD "summary".toList)
    let outputFormat := pyLower (req.output_format.getD "pdf".toList)
    let pageSizeStr := req.page_size.getD "A4".toList
    match rsplitDot fname with
    | Option.none => .err 500 (unexpectedMsg "list index out of range".toList)
    | some pr =>
      if pyLower pr.2 = "csv".toList then
        match parseCsvFn req.content with
        | .error e => .err 400 ("Failed to parse CSV file: ".toList ++ e)
        | .ok df =>
          dispatch (sanitizeColumns df) fname now reportType outputFormat pageSizeStr
      else if pyLower pr.2 = "xlsx".toList then
        match parseExcelFn req.content with
        | .error e => .err 400 ("Failed to parse Excel file: ".toList ++ e)
        | .ok df =>
          dispatch (sanitizeColumns df) fname now reportType outputFormat pageSizeStr
      else
        .err 500 (unexpectedMsg "NoneType object has no attribute columns".toList)

end Analyzer

namespace Analyzer

/-! ## Concrete inputs used by counterexamples and witnesses -/

/-- A frame with one text column and no rows (e.g. a CSV consisting of a
lone header). -/
def exF0 : Frame := ⟨[Col.object ['a'] []], 0⟩

/-- A frame with one text column and three rows. -/
def exF3 : Frame :=
  ⟨[Col.object ['a'] [.str ['x'], .str ['y'], .str ['z']]], 3⟩

/-- A frame with one text column `name` holding `a` and `b` — a frame
with zero numeric columns. -/
def exObj : Frame := ⟨[Col.object "name".toList [.str ['a'], .str ['b']]], 2⟩

/-- A frame with one numeric column of two values. -/
def exNum : Frame := ⟨[Col.numeric ['x'] [some 1, some 2]], 2⟩

/-- A frame whose single column has one missing value: its only data row
serialises to a blank CSV line. -/
def exBlankRow : Frame := ⟨[Col.object ['a'] [Cell.none]], 1⟩

/-- A two-column frame whose names and values exercise CSV quoting
(embedded commas, quotes and newlines) and missing values. -/
def exCsvF : Frame :=
  ⟨[Col.object "a,1".toList [.str "x\"y".toList, Cell.none],
    Col.object ['b'] [.str "l1\nl2".toList, .str [',']]], 2⟩

/-- A parser stub returning a fixed frame (stands for a successful pandas
parse). -/
def parseOkWith (f : Frame) : List Char → Res Frame := fun _ => .ok f

/-- A parser stub that always fails. -/
def parseFailing : List Char → Res Frame := fun _ => .error "boom".toList

/-- A fixed timestamp string for concrete evaluations. -/
def exNow : List Char := "2026-10-12 00:00".toList

/-- A well-formed request uploading `my data.csv` with summary/pdf
selections. -/
def exReq : Request :=
  ⟨true, "my data.csv".toList, "a\n1".toList, some "summary".toList,
   some "pdf".toList, Option.none⟩

/-- Extract the document of a successful PDF generation (placeholder
document on error). -/
def resOkPdf : Res PdfDoc → PdfDoc
  | .ok d => d
  | .error _ => ⟨.portrait .A4, []⟩

/-- The download-name stem the script derives: `filename.rsplit('.', 1)[0]`
(the whole name when there is no dot). -/
def stemOf (fname : List Char) : List Char :=
  ((rsplitDot fname).map Prod.fst).getD fname

/-- The fixed file extension per output format. -/
def extOf (outputFormat : List Char) : List Char :=
  if outputFormat = "pdf".toList then ".pdf".toList
  else if outputFormat = "csv".toList then ".csv".toList
  else if outputFormat = "excel".toList then ".xlsx".toList
  else []

/-- The fixed MIME type per output format. -/
def mimeOf (outputFormat : List Char) : List Char :=
  if outputFormat = "pdf".toList then "application/pdf".toList
  else if outputFormat = "csv".toList then "text/csv".toList
  else if outputFormat = "excel".toList then
    "application/vnd.openxmlformats-officedocument.spreadsheetml.sheet".toList
  else []

/-- The download-name suffix: `_summary_report` for summary reports,
`_full_data` (without `report`) otherwise, plus the format extension. -/
def suffixOf (reportType outputFormat : List Char) : List Char :=
  (if reportType = "summary".toList then "_summary_report".toList
   else "_full_data".toList) ++ extOf outputFormat

/-! ## Theorems -/

/-- The underscore character is in the allowed class. -/
lemma isAllowedNameChar_underscore : isAllowedNameChar '_' = true := by decide

/-- Composing the run-collapse with the per-character replacement agrees
with composing it with the specification-worded maximal-run replacement:
both leave the same non-underscore characters separated by single
underscores.  `pb = true` (the spec scanner is mid-run) forces `b = true`
(the collapse scanner just emitted an underscore). -/
lemma collapseAux_replaceBadChars_eq_go (t : List Char) :
    ∀ b pb, (pb = true → b = true) →
      collapseAux b (replaceBadChars t) = collapseAux b (specNormalize.go pb t) := by
  induction t with
  | nil => intro b pb _; cases pb <;> rfl
  | cons c rest ih =>
    intro b pb hpb
    by_cases hc : isAllowedNameChar c = true
    · by_cases hu : c = '_'
      · subst hu
        cases b <;>
          simp only [replaceBadChars, List.map_cons, specNormalize.go, hc,
            if_true, if_pos rfl, collapseAux, ite_true] <;>
          simpa [replaceBadChars] using ih true false (by simp)
      · cases b <;>
          simp only [replaceBadChars, List.map_cons, specNormalize.go, hc,
            if_true, collapseAux, if_neg hu] <;>
          simpa [replaceBadChars] using ih false false (by simp)
    · have hu : ('_' : Char) = '_' := rfl
      cases pb with
      | false =>
        cases b <;>
          simp only [replaceBadChars, List.map_cons, specNormalize.go, hc,
            if_neg hc, if_false, Bool.false_eq_true, ite_false, collapseAux,
            if_pos hu, ite_true] <;>
          simpa [replaceBadChars] using ih true true (by simp)
      | true =>
        have hb : b = true := hpb rfl
        subst hb
        simp only [replaceBadChars, List.map_cons, specNormalize.go, hc,
          Bool.false_eq_true, ite_false, collapseAux, if_pos hu, ite_true]
        simpa [replaceBadChars] using ih true true (by simp)

/-- Claim C2, counterexample: the already-normalized column name `a__b`
(all characters in `[a-z0-9_]`) is changed by the code to `a_b` — its
pre-existing double underscore is collapsed — while the claimed recipe
(replace maximal runs of characters *outside* the class, leave class
characters including existing underscores unchanged) keeps `a__b`. -/
theorem c2_counterexample :
    normalizeName "a__b".toList = "a_b".toList ∧
    specNormalize "a__b".toList = "a__b".toList ∧
    normalizeName "a__b".toList ≠ specNormalize "a__b".toList := by
  refine ⟨by decide, by decide, by decide⟩

/-- Claim C2, amended: each column name is normalized by trimming
whitespace, lowercasing, replacing each maximal run of characters outside
`[a-z0-9_]` with a single underscore, and then additionally collapsing
every maximal run of underscores — pre-existing underscores included — to
a single underscore. -/
theorem c2_amended (s : List Char) :
    normalizeName s = collapseUnderscores (specNormalize s) := by
  unfold normalizeName specNormalize collapseUnderscores
  exact collapseAux_replaceBadChars_eq_go (pyLower (pyStrip s)) false false (by simp)

/-- Every character that `replaceBadChars` emits is in the allowed class. -/
lemma replaceBadChars_allowed {c : Char} {t : List Char}
    (h : c ∈ replaceBadChars t) : isAllowedNameChar c = true := by
  simp only [replaceBadChars, List.mem_map] at h
  obtain ⟨d, _, rfl⟩ := h
  by_cases hd : isAllowedNameChar d = true
  · simp [hd]
  · simp only [hd, if_false, Bool.false_eq_true, ite_false]
    decide

/-- `collapseAux` emits only characters of its input. -/
lemma collapseAux_subset {c : Char} :
    ∀ (b : Bool) (t : List Char), c ∈ collapseAux b t → c ∈ t := by
  intro b t
  induction t generalizing b with
  | nil => simp [collapseAux]
  | cons d rest ih =>
    intro h
    by_cases hd : d = '_'
    · subst hd
      cases b with
      | true =>
        have h' : c ∈ collapseAux true rest := h
        exact List.mem_cons_of_mem _ (ih true h')
      | false =>
        have h' : c ∈ '_' :: collapseAux true rest := h
        rcases List.mem_cons.mp h' with h'' | h''
        · exact h'' ▸ List.mem_cons_self _ _
        · exact List.mem_cons_of_mem _ (ih true h'')
    · simp only [collapseAux] at h
      rw [if_neg hd] at h
      rcases List.mem_cons.mp h with h'' | h''
      · exact h'' ▸ List.mem_cons_self _ _
      · exact List.mem_cons_of_mem _ (ih false h'')

/-- `collapseAux false` of a nonempty list is nonempty (the first
character is always emitted). -/
lemma collapseAux_false_ne_nil {t : List Char} (h : t ≠ []) :
    collapseAux false t ≠ [] := by
  cases t with
  | nil => exact absurd rfl h
  | cons d rest =>
    by_cases hd : d = '_' <;> simp [collapseAux, hd]

/-- `dropWhile` keeps a counterwitness to its predicate. -/
lemma exists_mem_dropWhile {p : Char → Bool} :
    ∀ {s : List Char}, (∃ c ∈ s, p c = false) → ∃ c ∈ s.dropWhile p, p c = false := by
  intro s
  induction s with
  | nil => simp
  | cons d rest ih =>
    rintro ⟨c, hc, hpc⟩
    rw [List.mem_cons] at hc
    by_cases hd : p d = true
    · rw [List.dropWhile_cons_of_pos hd]
      rcases hc with rfl | hc
      · exact absurd hd (by simp [hpc])
      · exact ih ⟨c, hc, hpc⟩
    · rw [List.dropWhile_cons_of_neg hd]
      exact ⟨d, by simp, by simp [hd]⟩

/-- A string with a non-whitespace character keeps one after
`str.strip()`. -/
lemma pyStrip_has_nonspace {s : List Char} (h : ∃ c ∈ s, pyIsSpace c = false) :
    ∃ c ∈ pyStrip s, pyIsSpace c = false := by
  unfold pyStrip
  have h1 := exists_mem_dropWhile h
  have h2 : ∃ c ∈ (s.dropWhile pyIsSpace).reverse, pyIsSpace c = false := by
    obtain ⟨c, hc, hpc⟩ := h1
    exact ⟨c, by simpa using hc, hpc⟩
  have h3 := exists_mem_dropWhile h2
  obtain ⟨c, hc, hpc⟩ := h3
  exact ⟨c, by simpa using hc, hpc⟩

/-- Claim C8, amended: every normalized column name consists only of
characters in `[a-z0-9_]`; it is non-empty provided the source name has at
least one non-whitespace character (a whitespace-only or empty header cell
normalizes to the empty string). -/
theorem c8_amended (s : List Char) :
    (∀ c ∈ normalizeName s, isAllowedNameChar c = true) ∧
      ((∃ c ∈ s, pyIsSpace c = false) → normalizeName s ≠ []) := by
  constructor
  · intro c hc
    exact replaceBadChars_allowed
      (collapseAux_subset false (replaceBadChars (pyLower (pyStrip s))) hc)
  · intro h
    apply collapseAux_false_ne_nil
    obtain ⟨c, hc, -⟩ := pyStrip_has_nonspace h
    simp only [replaceBadChars, pyLower, ne_eq, List.map_eq_nil_iff]
    intro hnil
    simp [hnil] at hc

/-- Claim C8, witness for the amended theorem at the header `Name!`. -/
theorem c8_witness :
    (∀ c ∈ normalizeName "Name!".toList, isAllowedNameChar c = true) ∧
      normalizeName "Name!".toList ≠ [] :=
  ⟨(c8_amended "Name!".toList).1,
   (c8_amended "Name!".toList).2 ⟨'N', by decide, by decide⟩⟩

/-- Claim C8, counterexample: `a, ,c` + a data row is a valid CSV (pandas
keeps the whitespace-only header cell as the column name `" "`), and after
the code's normalization the middle column name is the empty string,
contradicting non-emptiness. -/
theorem c8_counterexample :
    (read_csv "a, ,c\n1,2,3".toList).map (fun df => (sanitizeColumns df).names) =
      .ok ["a".toList, [], "c".toList] ∧
    [] ∈ ["a".toList, ([] : List Char), "c".toList] := by
  refine ⟨by decide, by decide⟩

/-- Joining `k` consecutive `c`-sized chunks recovers the original list,
provided `k` chunks suffice to cover it. -/
lemma join_chunks {α : Type} (c : Nat) :
    ∀ (k : Nat) (l : List α), l.length ≤ k * c →
      ((List.range k).map fun i => ((l.drop (i * c)).take c)).flatten = l := by
  intro k
  induction k with
  | zero =>
    intro l hl
    simp only [Nat.zero_mul, Nat.le_zero, List.length_eq_zero] at hl
    simp [hl]
  | succ k ih =>
    intro l hl
    rw [List.range_succ_eq_map, List.map_cons, List.flatten_cons, List.map_map]
    have hstep : ((fun i => List.take c (List.drop (i * c) l)) ∘ Nat.succ) =
        fun i => List.take c (List.drop (i * c) (l.drop c)) := by
      funext i
      simp only [Function.comp_apply]
      rw [List.drop_drop]
      congr 2
      rw [Nat.succ_mul]
      omega
    have hlen : (l.drop c).length ≤ k * c := by
      rw [List.length_drop]
      have : l.length ≤ k * c + c := by
        calc l.length ≤ (k + 1) * c := hl
        _ = k * c + c := by ring
      omega
    rw [hstep, ih (l.drop c) hlen, Nat.zero_mul, List.drop_zero,
      List.take_append_drop]

/-- The data-chunk tables of the full-data story are exactly the 5000-row
chunks of the frame. -/
lemma dataTables_full_story (f : Frame) (filename now : List Char)
    (ps : PageSetting) :
    dataTables (generate_full_data_pdf f filename now ps).story = dataChunks f := by
  simp only [generate_full_data_pdf, dataTables, List.filterMap_append,
    List.filterMap_map]
  rw [show (List.filterMap (fun fl => match fl with
      | Flowable.table false d => some d
      | _ => Option.none)
      [Flowable.para ("Full Data Report: ".toList ++ filename) "Title".toList,
       Flowable.para ("Generated on: ".toList ++ now) "Normal".toList,
       Flowable.spacer 1 12,
       Flowable.table true [f.names.map Cell.str]]) = [] from rfl]
  rw [show ((fun fl => match fl with
      | Flowable.table false d => some d
      | _ => Option.none) ∘ fun x => Flowable.table false x) = some from rfl]
  simp

/-- The number of data chunks is the row count divided by 5000, rounded
up. -/
lemma dataChunks_length (f : Frame) :
    (dataChunks f).length = (f.nrows + pdfChunkSize - 1) / pdfChunkSize := by
  simp [dataChunks]

/-- The frame has one extracted row per counted row. -/
lemma rowsList_length (f : Frame) : f.rowsList.length = f.nrows := by
  simp [Frame.rowsList]

/-- Claim C1, amended: the full-data PDF story is title, timestamp,
spacer, then one header-only table followed by one table per consecutive
5000-row chunk; the chunks concatenate back to exactly the data rows and
each holds at most 5000 rows; more than 5000 rows give more than one
data-chunk table; 1-5000 rows give exactly one data-chunk table, which
then holds the entire dataset; 0 rows give no data-chunk table at all. -/
theorem c1_amended (f : Frame) (filename now : List Char) (ps : PageSetting) :
    ((generate_full_data_pdf f filename now ps).story.take 4 =
      [.para ("Full Data Report: ".toList ++ filename) "Title".toList,
       .para ("Generated on: ".toList ++ now) "Normal".toList,
       .spacer 1 12,
       .table true [f.names.map Cell.str]] ∧
     (generate_full_data_pdf f filename now ps).story.drop 4 =
       (dataChunks f).map (.table false ·)) ∧
    (dataTables (generate_full_data_pdf f filename now ps).story).flatten =
      f.rowsList ∧
    (∀ t ∈ dataTables (generate_full_data_pdf f filename now ps).story,
      t.length ≤ pdfChunkSize) ∧
    (pdfChunkSize < f.nrows →
      1 < (dataTables (generate_full_data_pdf f filename now ps).story).length) ∧
    (1 ≤ f.nrows → f.nrows ≤ pdfChunkSize →
      dataTables (generate_full_data_pdf f filename now ps).story =
        [f.rowsList]) ∧
    (f.nrows = 0 →
      dataTables (generate_full_data_pdf f filename now ps).story = []) := by
  have hceil : f.rowsList.length ≤
      ((f.nrows + pdfChunkSize - 1) / pdfChunkSize) * pdfChunkSize := by
    rw [rowsList_length]
    have h1 := Nat.div_add_mod (f.nrows + pdfChunkSize - 1) pdfChunkSize
    have h2 : (f.nrows + pdfChunkSize - 1) % pdfChunkSize < pdfChunkSize :=
      Nat.mod_lt _ (by simp [pdfChunkSize])
    simp only [pdfChunkSize] at h1 h2 ⊢
    omega
  have hjoin : (dataChunks f).flatten = f.rowsList := by
    unfold dataChunks
    exact join_chunks pdfChunkSize _ f.rowsList hceil
  refine ⟨⟨rfl, by simp [generate_full_data_pdf]⟩, ?_, ?_, ?_, ?_, ?_⟩
  · rw [dataTables_full_story]; exact hjoin
  · rw [dataTables_full_story]
    intro t ht
    simp only [dataChunks, List.mem_map, List.mem_range] at ht
    obtain ⟨i, -, rfl⟩ := ht
    exact List.length_take_le _ _
  · intro hgt
    rw [dataTables_full_story, dataChunks_length]
    simp only [pdfChunkSize] at hgt ⊢
    omega
  · intro h1 h2
    rw [dataTables_full_story]
    unfold dataChunks
    have hone : (f.nrows + pdfChunkSize - 1) / pdfChunkSize = 1 := by
      simp only [pdfChunkSize] at h1 h2 ⊢
      omega
    rw [hone]
    rw [show List.range 1 = [0] from rfl]
    simp only [List.map_cons, List.map_nil, Nat.zero_mul, List.drop_zero]
    rw [List.take_of_length_le (by rw [rowsList_length]; exact h2)]
  · intro h0
    rw [dataTables_full_story]
    unfold dataChunks
    simp [h0, pdfChunkSize]

/-- Claim C1, witness: at a 3-row frame the single data-chunk table is the
entire dataset; at a 5001-row frame there is more than one data-chunk
table. -/
theorem c1_witness :
    dataTables (generate_full_data_pdf exF3 "data.csv".toList exNow
        (.portrait .A4)).story = [exF3.rowsList] ∧
    1 < (dataTables (generate_full_data_pdf ⟨[Col.object ['a'] []], 5001⟩
        "data.csv".toList exNow (.portrait .A4)).story).length :=
  ⟨(c1_amended exF3 "data.csv".toList exNow (.portrait .A4)).2.2.2.2.1
      (by decide) (by decide),
   (c1_amended ⟨[Col.object ['a'] []], 5001⟩ "data.csv".toList exNow
      (.portrait .A4)).2.2.2.1 (by decide)⟩

/-- Claim C1, counterexample: a frame with 0 rows (at most 5000 rows)
produces *no* data-chunk table rather than exactly one, and for a 3-row
frame the single data-chunk table holds the entire dataset (all
`exF3.nrows` rows), contradicting the claim as stated. -/
theorem c1_counterexample :
    dataTables (generate_full_data_pdf exF0 "data.csv".toList exNow
        (.portrait .A4)).story = [] ∧
    dataTables (generate_full_data_pdf exF3 "data.csv".toList exNow
        (.portrait .A4)).story = [exF3.rowsList] ∧
    exF3.rowsList.length = exF3.nrows := by
  refine ⟨by decide, by decide, by decide⟩

/-- Claim C3: behaviour of the code at a frame with zero numeric columns
(one text column `name` = `[a, b]`).  `describe()` falls back to the
object statistics, so the Summary Frame is *not* empty (4 rows:
count/unique/top/freq, with the non-numeric column contributing), the
summary PDF renders a table and not the `No numeric columns found.`
placeholder — that branch is unreachable — and summary CSV generation
still succeeds. -/
theorem c3_code_behavior :
    (generate_summary_df exObj).map Frame.isEmpty = .ok false ∧
    (generate_summary_df exObj).map Frame.nrows = .ok 4 ∧
    (generate_summary_df exObj).map Frame.names =
      .ok ["Statistic".toList, "name".toList] ∧
    (generate_reportlab_pdf exObj "data.csv".toList exNow).map
      (fun d => countTables d.story) = .ok 1 ∧
    (generate_reportlab_pdf exObj "data.csv".toList exNow).map
      (fun d => d.story.contains
        (.para "No numeric columns found.".toList "Italic".toList)) =
      .ok false ∧
    (∃ content, generate_csv_report exObj "summary".toList = .ok content) := by
  refine ⟨by decide, by decide, by decide, by decide, by decide, ⟨_, rfl⟩⟩

/-- Claim C4: with at least one numeric column, the summary frame has the
`Statistic` label column holding exactly the eight statistics in the fixed
order count, mean, std, min, 25%, 50%, 75%, max; one numeric column per
numeric source column (in order); eight rows; and every present numeric
value is an integer multiple of `1/100` (rounded to 2 decimal places). -/
theorem c4_summary_structure (f : Frame) (hnum : f.numericCols ≠ []) :
    ∃ s, generate_summary_df f = .ok s ∧
      s.names = "Statistic".toList :: f.numericCols.map Col.name ∧
      s.cols.head? =
        some (Col.object "Statistic".toList (numericStatLabels.map Cell.str)) ∧
      s.nrows = 8 ∧
      (∀ c ∈ s.cols.tail, ∃ nm vs, c = Col.numeric nm vs ∧ vs.length = 8 ∧
        ∀ o ∈ vs, ∀ q, o = some q → ∃ n : ℤ, q = (n : ℚ) / 100) := by
  have hc : ¬ f.cols = [] := by
    intro h
    exact hnum (by simp [Frame.numericCols, h])
  unfold generate_summary_df
  rw [if_neg hc, if_pos hnum]
  refine ⟨_, rfl, ?_, rfl, rfl, ?_⟩
  · simp only [Frame.names, List.map_cons, List.map_map]
    rw [show (Col.object "Statistic".toList
        (List.map Cell.str numericStatLabels)).name = "Statistic".toList from rfl]
    congr 1
  · intro c hcmem
    have hcmem' : c ∈ f.numericCols.map (fun c0 =>
        Col.numeric c0.name
          ((describeNumeric (match c0 with
              | .numeric _ v => v
              | .object _ _ => [])).map (Option.map round2))) := hcmem
    simp only [List.mem_map] at hcmem'
    obtain ⟨c0, -, rfl⟩ := hcmem'
    refine ⟨c0.name, _, rfl, rfl, ?_⟩
    intro o ho q hq
    simp only [List.mem_map] at ho
    obtain ⟨o0, -, rfl⟩ := ho
    cases o0 with
    | none => simp at hq
    | some q0 =>
      have hq' : some (round2 q0) = some q := hq
      obtain rfl : round2 q0 = q := by injection hq'
      exact ⟨round (q0 * 100), rfl⟩

/-- Claim C4, witness: the structure theorem applied to a frame with one
numeric column of two values. -/
theorem c4_witness :
    ∃ s, generate_summary_df exNum = .ok s ∧
      s.names = "Statistic".toList :: exNum.numericCols.map Col.name ∧
      s.cols.head? =
        some (Col.object "Statistic".toList (numericStatLabels.map Cell.str)) ∧
      s.nrows = 8 ∧
      (∀ c ∈ s.cols.tail, ∃ nm vs, c = Col.numeric nm vs ∧ vs.length = 8 ∧
        ∀ o ∈ vs, ∀ q, o = some q → ∃ n : ℤ, q = (n : ℚ) / 100) :=
  c4_summary_structure exNum (by decide)

/-- Claim C5: with a file present and a nonempty filename, a disallowed
extension is rejected with a 400 before anything else (the response is the
same for every parser function, so no parse is attempted), and an
allowed-extension upload larger than the 150 MiB ceiling is rejected with
the size 400 — again for every parser function. -/
theorem c5_rejection (pc px : List Char → Res Frame) (now : List Char)
    (req : Request) (hf : req.hasFile = true) (hn : req.filename ≠ []) :
    (allowed_file req.filename = false →
      upload_and_analyze pc px now req =
        .err 400 "File type not allowed. Please upload a CSV or Excel file.".toList) ∧
    (allowed_file req.filename = true → req.content.length > MAX_FILE_SIZE →
      upload_and_analyze pc px now req =
        .err 400 "File is too large. Max size is 150MB.".toList) := by
  constructor
  · intro hext
    unfold upload_and_analyze
    rw [if_neg (by simp [hf]), if_neg hn, if_pos (by simp [hext])]
  · intro hext hsize
    unfold upload_and_analyze
    rw [if_neg (by simp [hf]), if_neg hn, if_neg (by simp [hext]),
      if_pos hsize]
    decide

/-- Claim C5, witness: a `.txt` upload is rejected with the extension
error, and a 150 MiB + 1 byte CSV upload is rejected with the size
error — both for a parser stub that would otherwise succeed. -/
theorem c5_witness :
    upload_and_analyze (parseOkWith exF3) parseFailing exNow
        { exReq with filename := "x.txt".toList } =
      .err 400 "File type not allowed. Please upload a CSV or Excel file.".toList ∧
    upload_and_analyze (parseOkWith exF3) parseFailing exNow
        { exReq with filename := "a.csv".toList,
                     content := List.replicate (MAX_FILE_SIZE + 1) 'a' } =
      .err 400 "File is too large. Max size is 150MB.".toList :=
  ⟨(c5_rejection (parseOkWith exF3) parseFailing exNow
      { exReq with filename := "x.txt".toList } rfl (by decide)).1 (by decide),
   (c5_rejection (parseOkWith exF3) parseFailing exNow
      { exReq with filename := "a.csv".toList,
                   content := List.replicate (MAX_FILE_SIZE + 1) 'a' } rfl
      (by decide)).2 (by decide) (by simp)⟩

/-- Claim C6, counterexample: a request with the invalid report_type
`weekly` and output_format `csv` is *not* rejected — the endpoint returns
a report file (the full-data CSV), contradicting the claimed 400 with no
report. -/
theorem c6_counterexample :
    (upload_and_analyze (parseOkWith exF3) parseFailing exNow
      { exReq with report_type := some "weekly".toList,
                   output_format := some "csv".toList }).isFile = true := by
  decide

/-- Claim C6, amended: an output_format outside pdf/csv/excel yields the
400 `Invalid output format selected` and no report; but a report_type
outside summary/full_data is not validated: with output_format pdf the
response is a 500 `Failed to generate report`, and with csv or excel the
unknown report_type is treated as full_data and a report file is
returned. -/
theorem c6_amended (df : Frame) (fname now rt of ps : List Char) :
    (of ≠ "pdf".toList → of ≠ "csv".toList → of ≠ "excel".toList →
      dispatch df fname now rt of ps =
        .err 400 "Invalid output format selected".toList) ∧
    (rt ≠ "summary".toList → rt ≠ "full_data".toList →
      (of = "pdf".toList →
        dispatch df fname now rt of ps =
          .err 500 "Failed to generate report".toList) ∧
      (of = "csv".toList →
        dispatch df fname now rt of ps =
          .file (.csvFile (toCsv df))
            ((((rsplitDot fname).map Prod.fst).getD fname) ++
              "_full_data.csv".toList)
            "text/csv".toList) ∧
      (of = "excel".toList →
        dispatch df fname now rt of ps =
          .file (.xlsxFile "Full Data".toList df)
            ((((rsplitDot fname).map Prod.fst).getD fname) ++
              "_full_data.xlsx".toList)
            "application/vnd.openxmlformats-officedocument.spreadsheetml.sheet".toList)) := by
  constructor
  · intro h1 h2 h3
    unfold dispatch
    rw [if_neg h1, if_neg h2, if_neg h3]
  · intro hr1 hr2
    refine ⟨?_, ?_, ?_⟩
    · intro hof
      subst hof
      unfold dispatch
      rw [if_pos rfl, if_neg hr1, if_neg hr2]
    · intro hof
      subst hof
      unfold dispatch
      rw [if_neg (by decide), if_pos rfl]
      unfold generate_csv_report
      rw [if_neg hr1]
      rw [if_neg hr1]
    · intro hof
      subst hof
      unfold dispatch
      rw [if_neg (by decide), if_neg (by decide), if_pos rfl]
      unfold generate_excel_report
      rw [if_neg hr1]
      rw [if_neg hr1]

/-- Claim C6, witness: the amended theorem at report_type `weekly`:
output_format `html` gives the 400, `pdf` the 500, `csv` a full-data CSV
report. -/
theorem c6_witness :
    dispatch exF3 "a.csv".toList exNow "weekly".toList "html".toList
        "A4".toList = .err 400 "Invalid output format selected".toList ∧
    dispatch exF3 "a.csv".toList exNow "weekly".toList "pdf".toList
        "A4".toList = .err 500 "Failed to generate report".toList ∧
    dispatch exF3 "a.csv".toList exNow "weekly".toList "csv".toList
        "A4".toList =
      .file (.csvFile (toCsv exF3))
        ((((rsplitDot "a.csv".toList).map Prod.fst).getD "a.csv".toList) ++
          "_full_data.csv".toList)
        "text/csv".toList :=
  ⟨(c6_amended exF3 "a.csv".toList exNow "weekly".toList "html".toList
      "A4".toList).1 (by decide) (by decide) (by decide),
   ((c6_amended exF3 "a.csv".toList exNow "weekly".toList "pdf".toList
      "A4".toList).2 (by decide) (by decide)).1 rfl,
   ((c6_amended exF3 "a.csv".toList exNow "weekly".toList "csv".toList
      "A4".toList).2 (by decide) (by decide)).2.1 rfl⟩

/-- Claim C10: any page_size string other than exactly `A3`, `A2` or `A1`
selects portrait A4; the three recognised values select the landscape
paper size; a summary PDF is built at portrait A4 whatever the page_size
(both at the generator and through the dispatch), and a full-data PDF
through the dispatch carries exactly the selected page size. -/
theorem c10_page_size (df : Frame) (fname now ps : List Char) :
    ((ps ≠ "A3".toList ∧ ps ≠ "A2".toList ∧ ps ≠ "A1".toList) →
      selectPageSize ps = .portrait .A4) ∧
    (ps = "A3".toList → selectPageSize ps = .landscape .A3) ∧
    (ps = "A2".toList → selectPageSize ps = .landscape .A2) ∧
    (ps = "A1".toList → selectPageSize ps = .landscape .A1) ∧
    (∀ doc, generate_reportlab_pdf df fname now = .ok doc →
      doc.pagesize = .portrait .A4) ∧
    (∀ d n m, dispatch df fname now "summary".toList "pdf".toList ps =
      .file (.pdfDoc d) n m → d.pagesize = .portrait .A4) ∧
    (∀ d n m, dispatch df fname now "full_data".toList "pdf".toList ps =
      .file (.pdfDoc d) n m → d.pagesize = selectPageSize ps) := by
  have hsumm : ∀ doc, generate_reportlab_pdf df fname now = .ok doc →
      doc.pagesize = .portrait .A4 := by
    intro doc h
    unfold generate_reportlab_pdf at h
    cases hg : generate_summary_df df with
    | error e => rw [hg] at h; exact absurd h (by simp)
    | ok s =>
      rw [hg] at h
      simp only [Res.ok.injEq] at h
      rw [← h]
  refine ⟨?_, ?_, ?_, ?_, hsumm, ?_, ?_⟩
  · rintro ⟨h3, h2, h1⟩
    unfold selectPageSize
    rw [if_neg h3, if_neg h2, if_neg h1]
  · intro h; subst h; rfl
  · intro h; subst h; rfl
  · intro h; subst h; rfl
  · intro d n m h
    unfold dispatch at h
    rw [if_pos rfl, if_pos rfl] at h
    cases hg : generate_reportlab_pdf df fname now with
    | error e => rw [hg] at h; exact absurd h (by simp)
    | ok doc =>
      rw [hg] at h
      simp only [Resp.file.injEq, ReportBody.pdfDoc.injEq] at h
      rw [← h.1]
      exact hsumm doc hg
  · intro d n m h
    unfold dispatch at h
    rw [if_pos rfl, if_neg (by decide), if_pos rfl] at h
    simp only [Resp.file.injEq, ReportBody.pdfDoc.injEq] at h
    rw [← h.1]
    rfl

/-- Claim C10, witness: the page-size theorem applied at the unrecognised
string `Letter` (portrait A4), at `A3` (landscape A3), and through the
dispatch for both summary and full-data PDFs. -/
theorem c10_witness :
    selectPageSize "Letter".toList = .portrait .A4 ∧
    selectPageSize "A3".toList = .landscape .A3 ∧
    (resOkPdf (generate_reportlab_pdf exObj "a.csv".toList exNow)).pagesize =
      .portrait .A4 ∧
    (generate_full_data_pdf exObj "a.csv".toList exNow
      (selectPageSize "Letter".toList)).pagesize =
      selectPageSize "Letter".toList :=
  ⟨(c10_page_size exObj "a.csv".toList exNow "Letter".toList).1
      ⟨by decide, by decide, by decide⟩,
   (c10_page_size exObj "a.csv".toList exNow "A3".toList).2.1 rfl,
   (c10_page_size exObj "a.csv".toList exNow "Letter".toList).2.2.2.2.2.1
      (resOkPdf (generate_reportlab_pdf exObj "a.csv".toList exNow))
      "a_summary_report.pdf".toList "application/pdf".toList rfl,
   (c10_page_size exObj "a.csv".toList exNow "Letter".toList).2.2.2.2.2.2
      (generate_full_data_pdf exObj "a.csv".toList exNow
        (selectPageSize "Letter".toList))
      "a_full_data.pdf".toList "application/pdf".toList rfl⟩

/-- Every file response of the dispatch names the file from the secured
stem plus the report-type/format suffix and carries the fixed MIME type of
the output format. -/
lemma dispatch_file_shape (df : Frame) (fname now rt of ps : List Char)
    (b : ReportBody) (n m : List Char)
    (h : dispatch df fname now rt of ps = .file b n m) :
    (of = "pdf".toList ∨ of = "csv".toList ∨ of = "excel".toList) ∧
      m = mimeOf of ∧ n = stemOf fname ++ suffixOf rt of := by
  by_cases h1 : of = "pdf".toList
  · subst h1
    unfold dispatch at h
    rw [if_pos rfl] at h
    refine ⟨.inl rfl, ?_⟩
    by_cases h2 : rt = "summary".toList
    · rw [if_pos h2] at h
      cases hg : generate_reportlab_pdf df fname now with
      | error e => rw [hg] at h; exact absurd h (by simp)
      | ok doc =>
        rw [hg] at h
        simp only [Resp.file.injEq] at h
        exact ⟨h.2.2.symm, by rw [← h.2.1, suffixOf, if_pos h2, stemOf]; rfl⟩
    · rw [if_neg h2] at h
      by_cases h3 : rt = "full_data".toList
      · rw [if_pos h3] at h
        simp only [Resp.file.injEq] at h
        exact ⟨h.2.2.symm, by rw [← h.2.1, suffixOf, if_neg h2, stemOf]; rfl⟩
      · rw [if_neg h3] at h
        exact absurd h (by simp)
  · by_cases h2 : of = "csv".toList
    · subst h2
      unfold dispatch at h
      rw [if_neg h1, if_pos rfl] at h
      refine ⟨.inr (.inl rfl), ?_⟩
      cases hg : generate_csv_report df rt with
      | error e => rw [hg] at h; exact absurd h (by simp)
      | ok content =>
        rw [hg] at h
        simp only [Resp.file.injEq] at h
        refine ⟨h.2.2.symm, ?_⟩
        rw [← h.2.1, suffixOf, stemOf]
        by_cases h3 : rt = "summary".toList
        · rw [if_pos h3, if_pos h3]; rfl
        · rw [if_neg h3, if_neg h3]; rfl
    · by_cases h3 : of = "excel".toList
      · subst h3
        unfold dispatch at h
        rw [if_neg h1, if_neg h2, if_pos rfl] at h
        refine ⟨.inr (.inr rfl), ?_⟩
        cases hg : generate_excel_report df rt with
        | error e => rw [hg] at h; exact absurd h (by simp)
        | ok sf =>
          rw [hg] at h
          simp only [Resp.file.injEq] at h
          refine ⟨h.2.2.symm, ?_⟩
          rw [← h.2.1, suffixOf, stemOf]
          by_cases h4 : rt = "summary".toList
          · rw [if_pos h4, if_pos h4]; rfl
          · rw [if_neg h4, if_neg h4]; rfl
      · unfold dispatch at h
        rw [if_neg h1, if_neg h2, if_neg h3] at h
        exact absurd h (by simp)

/-- A file response of the endpoint always comes out of the format
dispatch, applied to some sanitised frame, the secured filename, and the
lowercased form selectors. -/
lemma route_file_via_dispatch (pc px : List Char → Res Frame)
    (now : List Char) (req : Request) (b : ReportBody) (n m : List Char)
    (h : upload_and_analyze pc px now req = .file b n m) :
    ∃ df, dispatch df (secure_filename req.filename) now
      (pyLower (req.report_type.getD "summary".toList))
      (pyLower (req.output_format.getD "pdf".toList))
      (req.page_size.getD "A4".toList) = .file b n m := by
  unfold upload_and_analyze at h
  by_cases h1 : req.hasFile
  case neg => rw [if_pos (by simpa using h1)] at h; exact absurd h (by simp)
  case pos =>
  rw [if_neg (by simpa using h1)] at h
  by_cases h2 : req.filename = []
  case pos => rw [if_pos h2] at h; exact absurd h (by simp)
  case neg =>
  rw [if_neg h2] at h
  by_cases h3 : allowed_file req.filename
  case neg => rw [if_pos (by simpa using h3)] at h; exact absurd h (by simp)
  case pos =>
  rw [if_neg (by simpa using h3)] at h
  by_cases h4 : req.content.length > MAX_FILE_SIZE
  case pos => rw [if_pos h4] at h; exact absurd h (by simp)
  case neg =>
  rw [if_neg h4] at h
  dsimp only at h
  cases hr : rsplitDot (secure_filename req.filename) with
  | none => rw [hr] at h; exact absurd h (by simp)
  | some pr =>
    rw [hr] at h
    dsimp only at h
    by_cases h5 : pyLower pr.2 = "csv".toList
    · rw [if_pos h5] at h
      cases hp : pc req.content with
      | error e => rw [hp] at h; exact absurd h (by simp)
      | ok df => rw [hp] at h; exact ⟨sanitizeColumns df, h⟩
    · rw [if_neg h5] at h
      by_cases h6 : pyLower pr.2 = "xlsx".toList
      · rw [if_pos h6] at h
        cases hp : px req.content with
        | error e => rw [hp] at h; exact absurd h (by simp)
        | ok df => rw [hp] at h; exact ⟨sanitizeColumns df, h⟩
      · rw [if_neg h6] at h
        exact absurd h (by simp)

/-- Claim C7, amended: for every successful request the download filename
is the *sanitised* source filename's stem (`secure_filename`, which joins
whitespace runs with underscores, drops characters outside
`[A-Za-z0-9_.-]` and strips outer dots/underscores) followed by
`_summary_report.<ext>` when report_type is `summary` and
`_full_data.<ext>` otherwise, with `<ext>` and the MIME type fixed by the
output format (pdf/csv/xlsx). -/
theorem c7_amended (pc px : List Char → Res Frame) (now : List Char)
    (req : Request) (b : ReportBody) (n m : List Char)
    (h : upload_and_analyze pc px now req = .file b n m) :
    (pyLower (req.output_format.getD "pdf".toList) = "pdf".toList ∨
     pyLower (req.output_format.getD "pdf".toList) = "csv".toList ∨
     pyLower (req.output_format.getD "pdf".toList) = "excel".toList) ∧
    m = mimeOf (pyLower (req.output_format.getD "pdf".toList)) ∧
    n = stemOf (secure_filename req.filename) ++
      suffixOf (pyLower (req.report_type.getD "summary".toList))
        (pyLower (req.output_format.getD "pdf".toList)) := by
  obtain ⟨df, hd⟩ := route_file_via_dispatch pc px now req b n m h
  exact dispatch_file_shape df (secure_filename req.filename) now _ _ _ b n m hd

/-- Claim C7, witness: the amended theorem at a concrete full_data/csv
request for `my data.csv`. -/
theorem c7_witness :
    (pyLower ((some "csv".toList).getD "pdf".toList) = "pdf".toList ∨
     pyLower ((some "csv".toList).getD "pdf".toList) = "csv".toList ∨
     pyLower ((some "csv".toList).getD "pdf".toList) = "excel".toList) ∧
    "text/csv".toList =
      mimeOf (pyLower ((some "csv".toList).getD "pdf".toList)) ∧
    "my_data_full_data.csv".toList =
      stemOf (secure_filename "my data.csv".toList) ++
        suffixOf (pyLower ((some "full_data".toList).getD "summary".toList))
          (pyLower ((some "csv".toList).getD "pdf".toList)) :=
  c7_amended (parseOkWith exObj) parseFailing exNow
    { exReq with report_type := some "full_data".toList,
                 output_format := some "csv".toList }
    (.csvFile (toCsv (sanitizeColumns exObj)))
    "my_data_full_data.csv".toList "text/csv".toList rfl

/-- Claim C7, counterexample: the successful summary/pdf request for the
source file `my data.csv` downloads as `my_data_summary_report.pdf` — the
stem is the *sanitised* name `my_data`, not the source stem `my data`. -/
theorem c7_counterexample :
    (upload_and_analyze (parseOkWith exObj) parseFailing exNow exReq).isFile =
      true ∧
    (upload_and_analyze (parseOkWith exObj) parseFailing exNow exReq).name =
      some "my_data_summary_report.pdf".toList ∧
    "my_data_summary_report.pdf".toList ≠
      "my data".toList ++ "_summary_report.pdf".toList := by
  refine ⟨by decide, by decide, by decide⟩

/-- Unfolding step of the tokenizer outside quotes. -/
lemma recsAux_outQ_cons (c : Char) (fld : List Char) (rec : List (List Char))
    (out : List (List (List Char))) (rest : List Char) :
    recsAux .outQ fld rec out (c :: rest) =
      if c = '"' ∧ fld = [] then recsAux .inQ fld rec out rest
      else if c = ',' then recsAux .outQ [] (fld.reverse :: rec) out rest
      else if c = '\n' then
        recsAux .outQ [] [] ((fld.reverse :: rec).reverse :: out) rest
      else recsAux .outQ (c :: fld) rec out rest := rfl

/-- Unfolding step of the tokenizer inside quotes. -/
lemma recsAux_inQ_cons (c : Char) (fld : List Char) (rec : List (List Char))
    (out : List (List (List Char))) (rest : List Char) :
    recsAux .inQ fld rec out (c :: rest) =
      if c = '"' then recsAux .closedQ fld rec out rest
      else recsAux .inQ (c :: fld) rec out rest := rfl

/-- Unfolding step of the tokenizer just past a closing quote. -/
lemma recsAux_closedQ_cons (c : Char) (fld : List Char)
    (rec : List (List Char)) (out : List (List (List Char)))
    (rest : List Char) :
    recsAux .closedQ fld rec out (c :: rest) =
      if c = '"' then recsAux .inQ ('"' :: fld) rec out rest
      else if c = ',' then recsAux .outQ [] (fld.reverse :: rec) out rest
      else if c = '\n' then
        recsAux .outQ [] [] ((fld.reverse :: rec).reverse :: out) rest
      else recsAux .outQ (c :: fld) rec out rest := rfl

/-- Consuming special-character-free text outside quotes just accumulates
it into the current field. -/
lemma recsAux_outQ_nonspecial :
    ∀ (s : List Char), (∀ c ∈ s, specialCsvChar c = false) →
      ∀ (fld : List Char) rec out (rest : List Char),
        recsAux .outQ fld rec out (s ++ rest) =
          recsAux .outQ (s.reverse ++ fld) rec out rest := by
  intro s
  induction s with
  | nil => intro _ fld rec out rest; simp
  | cons c cs ih =>
    intro hs fld rec out rest
    have hc : specialCsvChar c = false := hs c (by simp)
    have hq : ¬ (c = '"' ∧ fld = []) := by
      rintro ⟨rfl, -⟩; simp [specialCsvChar] at hc
    have hcom : ¬ c = ',' := by rintro rfl; simp [specialCsvChar] at hc
    have hnl : ¬ c = '\n' := by rintro rfl; simp [specialCsvChar] at hc
    rw [List.cons_append, recsAux_outQ_cons, if_neg hq, if_neg hcom,
      if_neg hnl, ih (fun d hd => hs d (by simp [hd])) (c :: fld) rec out rest]
    simp

/-- Consuming the quote-doubled body of a quoted field, up to and
including the closing quote, accumulates the original text. -/
lemma recsAux_inQ_escQuotes :
    ∀ (s : List Char) (fld : List Char) rec out (rest : List Char),
      recsAux .inQ fld rec out (escQuotes s ++ '"' :: rest) =
        recsAux .closedQ (s.reverse ++ fld) rec out rest := by
  intro s
  induction s with
  | nil =>
    intro fld rec out rest
    simp [escQuotes, recsAux_inQ_cons]
  | cons c cs ih =>
    intro fld rec out rest
    by_cases hc : c = '"'
    · subst hc
      simp only [escQuotes, ite_true, if_pos rfl, List.cons_append,
        recsAux_inQ_cons]
      rw [recsAux_closedQ_cons, if_pos rfl, ih]
      simp
    · simp only [escQuotes, hc, ite_false, if_neg hc, List.cons_append,
        recsAux_inQ_cons]
      rw [ih]
      simp

/-- Consuming one serialised field followed by a comma pushes exactly the
original field onto the current record. -/
lemma recsAux_field_comma (s : List Char) (rec : List (List Char))
    (out : List (List (List Char))) (rest : List Char) :
    recsAux .outQ [] rec out (escField s ++ ',' :: rest) =
      recsAux .outQ [] (s :: rec) out rest := by
  by_cases hq : s.any specialCsvChar
  · rw [show escField s = '"' :: (escQuotes s ++ ['"']) from by
      simp [escField, hq]]
    rw [List.cons_append, List.append_assoc]
    rw [recsAux_outQ_cons, if_pos ⟨rfl, rfl⟩]
    rw [show ((['"'] : List Char) ++ ',' :: rest) = '"' :: ',' :: rest from rfl]
    rw [recsAux_inQ_escQuotes, recsAux_closedQ_cons, if_neg (by decide),
      if_pos rfl]
    simp
  · have hs : ∀ c ∈ s, specialCsvChar c = false := by
      intro c hc
      by_contra hcon
      exact hq (List.any_eq_true.mpr ⟨c, hc, by simpa using hcon⟩)
    rw [show escField s = s from by simp [escField, hq]]
    rw [recsAux_outQ_nonspecial s hs [] rec out (',' :: rest)]
    rw [recsAux_outQ_cons, if_neg (by simp), if_pos rfl]
    simp

/-- Consuming one serialised field followed by a newline closes the
current record, with the original field as its last entry. -/
lemma recsAux_field_newline (s : List Char) (rec : List (List Char))
    (out : List (List (List Char))) (rest : List Char) :
    recsAux .outQ [] rec out (escField s ++ '\n' :: rest) =
      recsAux .outQ [] [] ((s :: rec).reverse :: out) rest := by
  by_cases hq : s.any specialCsvChar
  · rw [show escField s = '"' :: (escQuotes s ++ ['"']) from by
      simp [escField, hq]]
    rw [List.cons_append, List.append_assoc]
    rw [recsAux_outQ_cons, if_pos ⟨rfl, rfl⟩]
    rw [show ((['"'] : List Char) ++ '\n' :: rest) = '"' :: '\n' :: rest from rfl]
    rw [recsAux_inQ_escQuotes, recsAux_closedQ_cons, if_neg (by decide),
      if_neg (by decide), if_pos rfl]
    simp
  · have hs : ∀ c ∈ s, specialCsvChar c = false := by
      intro c hc
      by_contra hcon
      exact hq (List.any_eq_true.mpr ⟨c, hc, by simpa using hcon⟩)
    rw [show escField s = s from by simp [escField, hq]]
    rw [recsAux_outQ_nonspecial s hs [] rec out ('\n' :: rest)]
    rw [recsAux_outQ_cons, if_neg (by simp), if_neg (by decide), if_pos rfl]
    simp

/-- A serialised line with at least two fields starts with its first
escaped field and a comma. -/
lemma csvLine_cons (s : List Char) (fs : List (List Char)) (h : fs ≠ []) :
    csvLine (s :: fs) = escField s ++ ',' :: csvLine fs := by
  cases fs with
  | nil => exact absurd rfl h
  | cons t ts =>
    simp only [csvLine, List.map_cons, List.intercalate,
      List.intersperse_cons_cons, List.flatten_cons]
    simp

/-- Consuming one full serialised line (terminated by a newline) emits
exactly its fields as one record. -/
lemma recsAux_line :
    ∀ (fs : List (List Char)), fs ≠ [] →
      ∀ (rec : List (List Char)) out (rest : List Char),
        recsAux .outQ [] rec out (csvLine fs ++ '\n' :: rest) =
          recsAux .outQ [] [] ((fs.reverse ++ rec).reverse :: out) rest := by
  intro fs
  induction fs with
  | nil => intro h; exact absurd rfl h
  | cons s fs ih =>
    intro _ rec out rest
    by_cases hfs : fs = []
    · subst hfs
      rw [show csvLine [s] = escField s from by simp [csvLine, List.intercalate]]
      rw [recsAux_field_newline]
      simp
    · rw [csvLine_cons s fs hfs, List.append_assoc]
      rw [show ((',' :: csvLine fs) ++ '\n' :: rest) =
        ',' :: (csvLine fs ++ '\n' :: rest) from rfl]
      rw [recsAux_field_comma, ih hfs]
      simp [List.append_assoc]

/-- Tokenizing a sequence of newline-terminated serialised lines yields
exactly their records (appended to the already-emitted output). -/
lemma recsAux_lines :
    ∀ (recs : List (List (List Char))), (∀ r ∈ recs, r ≠ []) →
      ∀ out,
        recsAux .outQ [] [] out
            (recs.foldr (fun r acc => csvLine r ++ '\n' :: acc) []) =
          out.reverse ++ recs := by
  intro recs
  induction recs with
  | nil =>
    intro _ out
    simp [recsAux]
  | cons r rs ih =>
    intro hne out
    rw [List.foldr_cons, recsAux_line r (hne r (by simp)) [] out _]
    rw [ih (fun t ht => hne t (by simp [ht]))]
    simp

/-- Tokenizing the full `to_csv` output recovers the header and row
records. -/
lemma splitRecords_toCsv (f : Frame) (h : f.cols ≠ []) :
    splitRecords (toCsv f) = toCsvRecords f := by
  have hne : ∀ r ∈ toCsvRecords f, r ≠ [] := by
    intro r hr
    simp only [toCsvRecords, List.mem_cons, List.mem_map] at hr
    rcases hr with rfl | ⟨row, hrow, rfl⟩
    · simp only [Frame.names, ne_eq, List.map_eq_nil_iff]
      exact h
    · simp only [ne_eq, List.map_eq_nil_iff]
      simp only [Frame.rowsList, List.mem_map] at hrow
      obtain ⟨i, -, rfl⟩ := hrow
      simp only [Frame.row, ne_eq, List.map_eq_nil_iff]
      exact h
  have := recsAux_lines (toCsvRecords f) hne []
  simpa [splitRecords, toCsv] using this

/-- With non-empty header names, the `Unnamed:` repair is the identity. -/
lemma renameUnnamed_id :
    ∀ (hs : List (List Char)), (∀ nm ∈ hs, nm ≠ []) → renameUnnamed hs = hs := by
  have key : ∀ (k : Nat) (hs : List (List Char)), (∀ nm ∈ hs, nm ≠ []) →
      (List.enumFrom k hs).map (fun p =>
        if p.2 = [] then "Unnamed: ".toList ++ natToStr p.1 else p.2) = hs := by
    intro k hs
    induction hs generalizing k with
    | nil => intro _; rfl
    | cons nm rest ih =>
      intro hne
      simp only [List.enumFrom, List.map_cons]
      rw [if_neg (hne nm (by simp)), ih (k + 1) (fun t ht => hne t (by simp [ht]))]
  intro hs hne
  have := key 0 hs hne
  simpa [renameUnnamed, List.enum] using this

/-- With pairwise-distinct header names, duplicate mangling is the
identity. -/
lemma mangleDup_go_id :
    ∀ (hs seen : List (List Char)), hs.Nodup → (∀ nm ∈ hs, nm ∉ seen) →
      mangleDup.go seen hs = hs := by
  intro hs
  induction hs with
  | nil => intro seen _ _; rfl
  | cons nm rest ih =>
    intro seen hnd hdisj
    simp only [mangleDup.go]
    rw [show seen.count nm = 0 from
      List.count_eq_zero.mpr (hdisj nm (by simp))]
    simp only [ite_true, if_pos rfl]
    rw [ih (nm :: seen) (List.Nodup.of_cons hnd) ?_]
    intro t ht
    simp only [List.mem_cons, not_or]
    refine ⟨?_, hdisj t (by simp [ht])⟩
    intro heq
    subst heq
    exact (List.nodup_cons.mp hnd).1 ht

/-- With pairwise-distinct header names, `mangleDup` is the identity. -/
lemma mangleDup_id (hs : List (List Char)) (h : hs.Nodup) :
    mangleDup hs = hs :=
  mangleDup_go_id hs [] h (by simp)

/-- Claim C9, amended: for every frame with at least one column,
pairwise-distinct non-empty column names, and no data row that serialises
to a blank line (a single-column row whose field prints empty — a missing
or empty-text value), writing the frame with `to_csv(index=False)` and
parsing it back with `read_csv` yields a frame with the same column names
and the same row count. -/
theorem c9_amended (f : Frame) (h1 : f.cols ≠ [])
    (h2 : ∀ nm ∈ f.names, nm ≠ []) (h3 : f.names.Nodup)
    (h4 : ∀ r ∈ f.rowsList, r.map cellToField ≠ [[]]) :
    ∃ g, read_csv (toCsv f) = .ok g ∧ g.names = f.names ∧ g.nrows = f.nrows := by
  have hsplit := splitRecords_toCsv f h1
  have hskip : skipBlank (toCsvRecords f) = toCsvRecords f := by
    apply List.filter_eq_self.mpr
    intro r hr
    simp only [toCsvRecords, List.mem_cons, List.mem_map] at hr
    simp only [ne_eq, decide_eq_true_eq]
    rcases hr with rfl | ⟨row, hrow, rfl⟩
    · intro hcon
      have hmem : ([] : List Char) ∈ f.names := by rw [hcon]; simp
      exact h2 [] hmem rfl
    · exact h4 row hrow
  unfold read_csv
  rw [hsplit, hskip]
  rw [show toCsvRecords f =
    f.names :: f.rowsList.map (·.map cellToField) from rfl]
  dsimp only
  rw [renameUnnamed_id f.names h2, mangleDup_id f.names h3]
  refine ⟨_, rfl, ?_, ?_⟩
  · show Frame.names _ = f.names
    simp only [Frame.names]
    rw [List.map_map]
    calc List.map (Col.name ∘ fun p =>
          Col.object p.2 ((f.rowsList.map (·.map cellToField)).map
            fun r => fieldToCell (r.getD p.1 []))) f.names.enum
        = List.map Prod.snd f.names.enum :=
          List.map_congr_left (fun p _ => rfl)
      _ = f.names := List.enum_map_snd f.names
  · show Frame.nrows _ = f.nrows
    simp only [Frame.nrows, List.length_map]
    exact rowsList_length f

/-- Claim C9, witness: the round-trip theorem at a two-column frame whose
names and values contain commas, quotes, newlines and a missing value. -/
theorem c9_witness :
    ∃ g, read_csv (toCsv exCsvF) = .ok g ∧ g.names = exCsvF.names ∧
      g.nrows = exCsvF.nrows :=
  c9_amended exCsvF (by decide) (by decide) (by decide) (by decide)

/-- Claim C9, counterexample: a single-column frame whose one row is a
missing value serialises to a blank CSV line, which `read_csv`
(`skip_blank_lines=True`) drops — the round trip returns 0 rows instead of
1, so row count is not preserved for every frame. -/
theorem c9_counterexample :
    (read_csv (toCsv exBlankRow)).map Frame.nrows = .ok 0 ∧
    exBlankRow.nrows = 1 ∧
    (read_csv (toCsv exBlankRow)).map Frame.nrows ≠ .ok exBlankRow.nrows := by
  refine ⟨by decide, by decide, by decide⟩

end Analyzer
